import Mathlib

/-!
Verification development for the dual-valve pressure-controller /
calibration-sequencer repository.

The Python sources are shallowly embedded over the rationals: every float
value of the program is modelled as a rational number, a float field that
may hold None is modelled as an Option, and NaN cells of the data table are
modelled as none.  Python rounding to k decimal places is modelled by
floor-based rounding to the k-decimal grid (the two differ only on exact
half-grid ties, which never arise in the values the claims touch).
Comparisons against a standard deviation are embedded by comparing the
sample variance against the squared threshold, which is equivalent for the
non-negative quantities involved; dedicated helpers state exactly which
square-free comparison they encode.
-/

namespace PressureController

/-- Arithmetic mean of a list of rationals; 0 on the empty list
(the sources only take means of non-empty collections). -/
def mean (xs : List ℚ) : ℚ := xs.sum / xs.length

/-- Sample variance with Bessel correction, the square of the value
Python computes as statistics.stdev; 0 on lists of fewer than two
elements (statistics.stdev raises there, and every call site guards
the length). -/
def svar (xs : List ℚ) : ℚ :=
  if xs.length ≤ 1 then 0
  else ((xs.map (fun x => (x - mean xs) * (x - mean xs))).sum) / ((xs.length : ℚ) - 1)

/-- Embeds the comparison sqrt v > t for a variance v ≥ 0: it holds iff
t is negative or t * t < v. -/
def stdevGtB (v t : ℚ) : Bool := decide (t < 0) || decide (t * t < v)

/-- Embeds the comparison sqrt v < t for a variance v ≥ 0: it holds iff
t is non-negative and v < t * t. -/
def stdevLtB (v t : ℚ) : Bool := decide (0 ≤ t) && decide (v < t * t)

/-- Rounding to two decimal places: the Python round(x, 2) and the .2f
format used on serial commands (floor-based; differs from the banker
rounding of Python floats only at exact half-cent ties). -/
def round2 (x : ℚ) : ℚ := ((⌊x * 100 + 1 / 2⌋ : ℤ) : ℚ) / 100

/-- Rounding to three decimal places: the round(sp, 3) applied before a
setpoint keys the learned-position store. -/
def round3 (x : ℚ) : ℚ := ((⌊x * 1000 + 1 / 2⌋ : ℤ) : ℚ) / 1000

/-- Append to a deque of maxlen 10: the oldest entries are dropped from
the left once the length exceeds 10. -/
def append10 (h : List ℚ) (x : ℚ) : List ℚ :=
  let h' := h ++ [x]
  if 10 < h'.length then h'.drop (h'.length - 10) else h'

/-- The Python slice l[-10:]: the at most 10 most recent entries. -/
def lastTen (l : List ℚ) : List ℚ :=
  if 10 < l.length then l.drop (l.length - 10) else l

/-! ### Setpoint generation (Auto_Cal_Logic.run_calibration)

The sequencer builds the union of the 0,10,...,100 percent decade points
of the standard full scale and of every active DUT full scale, rounded to
two decimals, deduplicated by set membership and sorted ascending. -/

/-- The eleven decade points round(f * i / 100, 2) for i = 0, 10, ..., 100. -/
def decadePoints (f : ℚ) : List ℚ :=
  (List.range 11).map (fun i => round2 (f * (10 * (i : ℚ)) / 100))

/-- Composite setpoint list for standard full scale fs and the list of
active DUT full scales: union of all decade points, deduplicated, sorted
ascending (the Python set insertion order is irrelevant after sorting). -/
def genSetpoints (fs : ℚ) (dutFs : List ℚ) : List ℚ :=
  List.insertionSort (· ≤ ·) ((decadePoints fs ++ dutFs.flatMap decadePoints).dedup)

/-! ### DUT display pressure (win64x_final/Main.update_gui)

For each of the four channels the GUI derives a pressure from the
smoothed DAQ voltage.  The raw DAQ voltage is first multiplied by the
voltage-divider constant 4.9 of this version, then scaled by fs / 10. -/

/-- The voltage-divider compensation constant of this version. -/
def voltageDividerMultiplier : ℚ := 4.9

/-- Derived DUT pressure of update_gui for a channel: none models the
np.nan recorded when the channel is inactive or the DAQ returned no
voltage; otherwise the compensated voltage scaled by fs / 10.  The DUT
list carries (channel, full scale) pairs and the first matching entry
supplies fs, as in the Python list comprehension. -/
def dutDisplayPressure (activeDuts : List (ℕ × ℚ)) (ch : ℕ)
    (voltageFromDaq : Option ℚ) : Option ℚ :=
  if activeDuts.any (fun d => d.1 = ch) then
    match voltageFromDaq with
    | none => none
    | some v =>
      match (activeDuts.filter (fun d => d.1 = ch)).map (fun d => d.2) with
      | [] => none
      | fs :: _ => some (v * voltageDividerMultiplier * (fs / 10))
  else none

/-- Modelled from the spec: the DUT sample record formula of section 3,
derived pressure = voltage * (dut_fs / 10.0).  Used only to compare the
claim with what the code computes. -/
def specDutPressure (voltage fs : ℚ) : ℚ := voltage * (fs / 10)

/-! ### Result-row recording (Auto_Cal_Logic.run_calibration)

After the 5 second sample window the sequencer records, per DUT, the mean
of the collected readings, or NaN when no reading was collected.  The
RPi_final version records the mean unconditionally; the final version
additionally forces NaN whenever sp exceeds 1.05 times the DUT full
scale. -/

/-- Completion test of the setpoint loop: sp > dut_fs * 1.05. -/
def dutCompletedB (sp fs : ℚ) : Bool := decide (fs * 1.05 < sp)

/-- Recorded row value of the RPi_final sequencer for one DUT: the mean
of the collected readings, none (NaN) only when nothing was collected. -/
def recordDutValueRPi (readings : List ℚ) : Option ℚ :=
  if readings.isEmpty then none else some (mean readings)

/-- Recorded row value of the final-version sequencer for one DUT: NaN is
forced as soon as sp > fs * 1.05, otherwise as in the RPi version. -/
def recordDutValueFinal (sp fs : ℚ) (readings : List ℚ) : Option ℚ :=
  if fs * 1.05 < sp then none else recordDutValueRPi readings

/-- The (standard, dut) pairs that survive the NaN filter of the post-run
analysis and of the certificate check: both cells must be numbers. -/
def validPairs (rows : List (Option ℚ × Option ℚ)) : List (ℚ × ℚ) :=
  rows.filterMap (fun r =>
    match r with
    | (some s, some d) => some (s, d)
    | _ => none)

/-! ### Post-run analysis (final/Tuning_Analysis.generate_tuning_suggestions)
and certificate check (RPi_final/Auto_Cal_Logic.run_calibration). -/

/-- Ordinary least squares line fit dut = slope * std + intercept through
the valid pairs, the closed normal-equations form of np.polyfit(std, dut, 1)
on a non-degenerate sample (rational division by a zero determinant yields
the junk value 0, a case np.polyfit only reaches on rank-deficient data). -/
def olsFit (pts : List (ℚ × ℚ)) : ℚ × ℚ :=
  let n : ℚ := pts.length
  let sx := (pts.map (fun q => q.1)).sum
  let sy := (pts.map (fun q => q.2)).sum
  let sxx := (pts.map (fun q => q.1 * q.1)).sum
  let sxy := (pts.map (fun q => q.1 * q.2)).sum
  let slope := (n * sxy - sx * sy) / (n * sxx - sx * sx)
  (slope, (sy - slope * sx) / n)

/-- Residuals dut_i - (slope * std_i + intercept) of the fitted line. -/
def residuals (pts : List (ℚ × ℚ)) : List ℚ :=
  pts.map (fun q => q.2 - ((olsFit pts).1 * q.1 + (olsFit pts).2))

/-- Maximum of the absolute values of a list, as the Python max over
np.abs on a non-empty list of reals (0 on the empty list; every entry fed
to it is taken in absolute value, so the extra 0 never changes a maximum
over a non-empty list). -/
def maxAbs (l : List ℚ) : ℚ := (l.map (fun x => |x|)).foldr max 0

/-- Pass status computed by generate_tuning_suggestions for one DUT:
false with fewer than 3 valid pairs (insufficient data); otherwise true
iff none of zero offset, span error and linearity error is significant. -/
def tuningPassStatus (pts : List (ℚ × ℚ)) (fs : ℚ) : Bool :=
  if pts.length < 3 then false
  else
    let si := olsFit pts
    let zeroSig := decide (fs * 0.001 < |si.2|)
    let spanSig := decide ((0.005 : ℚ) < |1 - si.1|)
    let nl := residuals pts
    let linSig := if nl.isEmpty then false else decide (fs * 0.002 < maxAbs nl)
    !(zeroSig || spanSig || linSig)

/-- Maximum absolute deviation |dut - std| over the valid pairs, used by
the certificate check of run_calibration. -/
def maxAbsErr (pts : List (ℚ × ℚ)) : ℚ := maxAbs (pts.map (fun q => q.2 - q.1))

/-- The certificate-generation signal of run_calibration for one DUT:
a certificate is generated iff strictly more than 3 valid pairs exist and
their maximum absolute deviation is at most fs * 0.005. -/
def certSignal (pts : List (ℚ × ℚ)) (fs : ℚ) : Bool :=
  if 3 < pts.length then decide (maxAbsErr pts ≤ fs * 0.005) else false

/-! ### Learned outlet-position store (Auto_Cal_Logic.run_calibration)

A mapping from rounded setpoint to the list of recent outlet positions,
modelled as an association list (the Python dict with replacement on
existing keys). -/

/-- The learned-position store. -/
def Store : Type := List (ℚ × List ℚ)

instance : DecidableEq Store := by
  unfold Store
  infer_instance

/-- Lookup of a key in the store. -/
def storeLookup : Store → ℚ → Option (List ℚ)
  | [], _ => none
  | (k', v) :: rest, k => if k' = k then some v else storeLookup rest k

/-- Update of a key in the store: replaces the entry when present,
appends a fresh entry otherwise. -/
def storeSet : Store → ℚ → List ℚ → Store
  | [], k, v => [(k, v)]
  | (k', v') :: rest, k, v =>
    if k' = k then (k', v) :: rest else (k', v') :: storeSet rest k v

/-- The learn step of run_calibration at setpoint sp: when the outlet
position is known (the Python is-not-None guard), append it to the entry
keyed by round(sp, 3) and truncate that entry to the 10 most recent
values.  There is no condition on sp. -/
def learnStep (st : Store) (sp : ℚ) (outletPos : Option ℚ) : Store :=
  match outletPos with
  | none => st
  | some pos =>
    let key := round3 sp
    let appended := (storeLookup st key).getD [] ++ [pos]
    storeSet st key (lastTen appended)

/-! ### Pressure state controller (State_Machine_Controller.py)

The scalar shared state of StateMachinePressureController.  Fields that
the Python code initializes to None and guards with is-None checks are
Options; inlet and outlet positions are initialized to 0.0 and only ever
reassigned parsed floats, so they are plain rationals (the vestigial
is-None guards on them are identically false). -/

/-- The log_reason values of one adaptive tick, one constructor per
distinct reason string of the source (the formatted numbers are not part
of the control flow). -/
inductive Reason where
  | skipped
  | holding
  | emergencyDescent
  | pressureOscillating
  | inletOscillating
  | leakUp
  | stuckHigh
  | inletOverworked
  | inletClosedForcing
  | inletNearClosed
  | maxSlopeDetected
  | maxSlopeHold
  | maxSlopeReleased
  deriving DecidableEq

structure Ctrl where
  full_scale_pressure : ℚ
  system_setpoint : ℚ
  previous_setpoint : ℚ
  pressure_history : List ℚ
  inlet_pos_history : List ℚ
  current_pressure : Option ℚ
  inlet_valve_pos : ℚ
  outlet_valve_pos : ℚ
  hold_all_valves : Bool
  hold_outlet_valve : Bool
  manual_override_active : Bool
  oscillation_counter : ℕ
  oscillation_cooldown : Bool
  inlet_oscillation_counter : ℕ
  inlet_near_closed_counter : ℕ
  max_slope_hold : Bool
  inlet_high_blind_active : Bool
  inlet_high_blind_start_time : ℚ
  last_log_reason : Option Reason
  deriving DecidableEq

/-- Counter-update stage of one adaptive tick: oscillation counter and
cooldown, inlet-oscillation counter (all only while the mean pressure is
near the setpoint and the blind window is inactive, reset otherwise), and
the near-closed counter. -/
def updateCounters (s : Ctrl) : Ctrl :=
  let meanPressure := mean s.pressure_history
  let isNear := |meanPressure - s.system_setpoint| < s.full_scale_pressure * 0.02
  let s1 : Ctrl :=
    if isNear ∧ s.inlet_high_blind_active = false then
      let thr := s.system_setpoint * 0.003 + s.full_scale_pressure * 0.0008
      let s1a : Ctrl :=
        if stdevGtB (svar s.pressure_history) thr then
          { s with oscillation_counter := min (s.oscillation_counter + 1) 5,
                   oscillation_cooldown := true }
        else
          let oc := s.oscillation_counter - 1
          { s with oscillation_counter := oc,
                   oscillation_cooldown := if oc = 0 then false else s.oscillation_cooldown }
      if s1a.inlet_pos_history.length = 10 then
        if stdevGtB (svar s1a.inlet_pos_history) 2 then
          { s1a with inlet_oscillation_counter := min (s1a.inlet_oscillation_counter + 1) 5 }
        else
          { s1a with inlet_oscillation_counter := s1a.inlet_oscillation_counter - 1 }
      else s1a
    else
      { s with oscillation_counter := 0, oscillation_cooldown := false,
               inlet_oscillation_counter := 0 }
  if 99.5 < s1.inlet_valve_pos then
    { s1 with inlet_near_closed_counter := s1.inlet_near_closed_counter + 1 }
  else
    { s1 with inlet_near_closed_counter := 0 }

/-- The second-to-last element of a history, the Python index [-2]
(call sites guard the length). -/
def secondLast (xs : List ℚ) : ℚ := xs.reverse.getD 1 0

/-- Outcome of the decision stage of one adaptive tick. -/
structure Decision where
  state : Ctrl
  newOutletPos : ℚ
  reason : Reason
  deriving DecidableEq

/-- Decision stage of one adaptive tick, operating on the state produced
by the counter-update stage, with cp the known current pressure: picks at
most one candidate outlet move by the first matching priority, performing
the counter resets and max-slope-hold transitions of the source. -/
def decideAction (s : Ctrl) (cp : ℚ) : Decision :=
  let cur := s.outlet_valve_pos
  let inlet := s.inlet_valve_pos
  let error := cp - s.system_setpoint
  if 2 ≤ s.oscillation_counter then
    if s.full_scale_pressure * 0.05 < error then
      ⟨{ s with oscillation_counter := 0 }, cur - 2, .emergencyDescent⟩
    else
      ⟨{ s with oscillation_counter := 0 }, cur - 0.2, .pressureOscillating⟩
  else if 3 ≤ s.inlet_oscillation_counter then
    ⟨{ s with inlet_oscillation_counter := 0 }, cur - 0.2, .inletOscillating⟩
  else if inlet < 1 ∧ 0.1 < error then
    ⟨s, cur + 0.2, .leakUp⟩
  else
    let step : ℚ := 0.5
    let isStable := stdevLtB (svar s.pressure_history) (0.005 + s.system_setpoint * 0.001)
    let d :=
      if isStable = true ∧ 0.2 < error ∧ s.inlet_high_blind_active = false ∧
          s.oscillation_cooldown = false then
        ⟨s, cur + step, .stuckHigh⟩
      else if inlet < 75 ∧ s.oscillation_cooldown = false ∧
          s.inlet_high_blind_active = false then
        let trend := if 1 < s.inlet_pos_history.length
          then inlet - secondLast s.inlet_pos_history else 0
        if trend < -0.1 then
          ⟨{ s with max_slope_hold := true }, cur, .maxSlopeDetected⟩
        else
          ⟨s, cur - step, .inletOverworked⟩
      else if 5 ≤ s.inlet_near_closed_counter ∧ 0 < s.system_setpoint ∧
          s.previous_setpoint ≠ 0 then
        if s.full_scale_pressure * 0.01 < error then
          ⟨{ s with inlet_near_closed_counter := 0 }, cur + step * 2, .inletClosedForcing⟩
        else
          ⟨{ s with inlet_near_closed_counter := 0 }, cur + step, .inletNearClosed⟩
      else
        (⟨s, cur, .holding⟩ : Decision)
    if d.state.max_slope_hold = true then
      if isStable = true ∧ 0.1 < error then
        ⟨{ d.state with max_slope_hold := false }, d.newOutletPos, .maxSlopeReleased⟩
      else
        ⟨d.state, cur, .maxSlopeHold⟩
    else d

/-- Setpoint as a percentage of full scale, 0 when the full scale is not
positive, as guarded in the source. -/
def setpointPercent (s : Ctrl) : ℚ :=
  if 0 < s.full_scale_pressure then s.system_setpoint / s.full_scale_pressure * 100 else 0

/-- The dynamic outlet clamp of the adaptive loop, (minimum, maximum) as
a function of the setpoint percentage. -/
def clampBounds (spct : ℚ) : ℚ × ℚ :=
  if spct ≤ 10 then (5, 85)
  else if spct ≤ 40 then (15, 50)
  else if spct < 90 then (22, 35)
  else (22, 40)

/-- Emission stage of one adaptive tick.  A holding decision during the
blind window only sleeps.  Otherwise the candidate is clamped into the
dynamic bounds and a command is emitted (as the pair S1 value, D1, here
the 2-decimal formatted value) only when the clamped position differs
from the current outlet position by more than 0.1 percent. -/
def emitPhase (s : Ctrl) (d : Decision) (spct : ℚ) : Ctrl × Option ℚ × Reason :=
  if d.reason = .holding ∧ d.state.inlet_high_blind_active = true then
    (d.state, none, .holding)
  else
    let b := clampBounds spct
    let clamped := max b.1 (min b.2 d.newOutletPos)
    if 0.1 < |clamped - s.outlet_valve_pos| then
      ({ d.state with last_log_reason := some d.reason }, some (round2 clamped), d.reason)
    else
      ({ d.state with last_log_reason := none }, none, d.reason)

/-- One tick of the adaptive outlet loop: the skip guards (e-stop event,
manual override, holds, short history, non-positive setpoint, unknown
pressure), the blind-window expiry (now is the wall clock of the tick),
the counter updates, the decision and the emission.  Returns the new
state, the emitted S1 outlet value when a write happened, and the
tick reason. -/
def adaptiveTick (s : Ctrl) (estop : Bool) (now : ℚ) : Ctrl × Option ℚ × Reason :=
  match s.current_pressure with
  | none => (s, none, .skipped)
  | some cp =>
    if estop = true ∨ s.manual_override_active = true ∨ s.hold_all_valves = true ∨
        s.hold_outlet_valve = true ∨ s.pressure_history.length < 10 ∨
        s.system_setpoint ≤ 0 then
      (s, none, .skipped)
    else
      let s1 := if s.inlet_high_blind_active = true ∧
          10 < now - s.inlet_high_blind_start_time
        then { s with inlet_high_blind_active := false } else s
      emitPhase s (decideAction (updateCounters s1) cp) (setpointPercent s)

/-! ### set_pressure (State_Machine_Controller.set_pressure)

Serial commands are modelled as values; a query (R5, R6) is a read whose
reply the environment supplies, so only the state-changing writes C, S1
and D1 appear in the command trace. -/

/-- The two valve endpoints. -/
inductive Valve where
  | inlet
  | outlet
  deriving DecidableEq

/-- The state-changing serial commands: C, S1 with its percentage
argument, and D1. -/
inductive CmdOp where
  | close
  | loadSetpointA (v : ℚ)
  | activateA
  deriving DecidableEq

/-- A command addressed to one endpoint. -/
structure Cmd where
  valve : Valve
  op : CmdOp
  deriving DecidableEq

/-- Environment of one set_pressure call: the value of the e-stop event
(the shared event is sampled at each check; a call-constant value is
used, which covers every claim about the entry check and the pre-ramp
abort), the successive values of inlet_valve_pos seen by the at most
15 second pump-down poll (at 0.5 second period the list is finite), the
get_pressure result after the inlet closed, the two R6 query replies of
the post-move repoll, and the wall clock at the call. -/
structure SPEnv where
  estop : Bool
  inletPollObs : List (Option ℚ)
  pressureAfterClose : Option ℚ
  inletPosQ : Option ℚ
  outletPosQ : Option ℚ
  now : ℚ

/-- get_valve_positions: each successful R6 reply updates the matching
position field, and the inlet value is appended to its history. -/
def applyValvePoll (s : Ctrl) (env : SPEnv) : Ctrl :=
  let s1 := match env.inletPosQ with
    | some v => { s with inlet_valve_pos := v,
                         inlet_pos_history := append10 s.inlet_pos_history v }
    | none => s
  match env.outletPosQ with
  | some v => { s1 with outlet_valve_pos := v }
  | none => s1

/-- The outlet ramp commands of the pump-down path when pressure is
high: ten 2-percent steps to 20, then ten 0.5-percent steps to 25 (the
per-step e-stop checks all see the call-constant flag, which is false on
every path that reaches the ramp). -/
def pumpDownRampCmds : List Cmd :=
  ((List.range 10).flatMap fun i =>
    [⟨.outlet, .loadSetpointA (((i : ℚ) + 1) * 2)⟩, ⟨.outlet, .activateA⟩])
  ++ ((List.range 10).flatMap fun i =>
    [⟨.outlet, .loadSetpointA (20 + ((i : ℚ) + 1) * 0.5)⟩, ⟨.outlet, .activateA⟩])

/-- set_pressure(pressure, predicted_outlet_pos): returns the state after
the call together with the trace of state-changing serial commands, in
order.  An e-stop set at entry returns immediately with no effect.  The
sp = 0 path writes inlet C, polls for the inlet to close and aborts on
timeout; otherwise it optionally ramps the outlet and finally opens it
fully.  The sp > 0 path seats the outlet (predicted position, or the
percent-of-FS table when coming from zero), arms the blind window when
coming from zero, repolls positions if the outlet was moved, and loads
and activates the inlet pressure setpoint. -/
def setPressure (s : Ctrl) (env : SPEnv) (p : ℚ) (predicted : Option ℚ) :
    Ctrl × List Cmd :=
  if env.estop = true then (s, [])
  else
    let s1 := { s with hold_all_valves := false,
                       previous_setpoint := s.system_setpoint,
                       system_setpoint := p,
                       pressure_history := [],
                       last_log_reason := none,
                       max_slope_hold := false,
                       oscillation_cooldown := false }
    if p = 0 then
      let inletClosed := env.inletPollObs.any fun o =>
        match o with
        | some v => decide (99.9 < v)
        | none => false
      if inletClosed = false then (s1, [⟨.inlet, .close⟩])
      else
        let highP := match env.pressureAfterClose with
          | some cp => decide (s1.full_scale_pressure * 0.75 < cp)
          | none => false
        (s1, ⟨.inlet, .close⟩ ::
          ((if highP then pumpDownRampCmds else []) ++
            [⟨.outlet, .loadSetpointA 100⟩, ⟨.outlet, .activateA⟩]))
    else
      let moveRes : List Cmd × Bool :=
        match predicted with
        | some pp => ([⟨.outlet, .loadSetpointA (round2 pp)⟩, ⟨.outlet, .activateA⟩], true)
        | none =>
          if s1.previous_setpoint = 0 then
            let spct := p / s1.full_scale_pressure * 100
            let ipos : ℚ :=
              if 90 ≤ spct then 24 else if 40 < spct then 28
              else if 10 < spct then 40 else 70
            ([⟨.outlet, .loadSetpointA ipos⟩, ⟨.outlet, .activateA⟩], true)
          else ([], false)
      let s2 := if s1.previous_setpoint = 0 then
          { s1 with inlet_high_blind_active := true,
                    inlet_high_blind_start_time := env.now }
        else s1
      let s3 := if moveRes.2 then applyValvePoll s2 env else s2
      (s3, moveRes.1 ++
        [⟨.inlet, .loadSetpointA (round2 (p / s1.full_scale_pressure * 100))⟩,
         ⟨.inlet, .activateA⟩])

/-! ### Stability wait of the sequencer (Auto_Cal_Logic.run_calibration)

The per-setpoint stability loop runs at 2 Hz until it decides to proceed
to the sample window (or the run is cancelled, which in the source skips
the sample window).  Each iteration observes the shared pressure history
and current pressure and, when the out-of-tolerance prompt fires, the
operator's yes/no answer; the several wall-clock reads of one iteration
are modelled as a single instant t. -/

/-- The priority tolerance: the tightest dut_fs * 0.005 over the DUTs
relevant at this setpoint, or standard_fs * 0.005 when none is. -/
def priorityTolerance (relevantDutFs : List ℚ) (standardFs : ℚ) : ℚ :=
  match relevantDutFs.map (fun f => f * 0.005) with
  | [] => standardFs * 0.005
  | x :: xs => xs.foldl min x

/-- One observation of the stability loop. -/
structure StabObs where
  t : ℚ
  history : List ℚ
  current : Option ℚ
  opAccept : Bool
  deriving DecidableEq

/-- The two timers of the stability loop. -/
structure StabState where
  stabilityConfirmed : Option ℚ
  outOfTolStart : Option ℚ
  deriving DecidableEq

/-- One iteration of the stability loop: some st means the loop
continues with timers st, none means it breaks into the sample window.
A short history or an unknown pressure only sleeps; a stable in-tolerance
reading starts or checks the 3 second timer; a stable out-of-tolerance
reading starts or checks the 20 second timer and, after 20 seconds,
prompts the operator (acceptance breaks, refusal restarts that timer);
instability clears both timers. -/
def stabStep (fs sp tol : ℚ) (st : StabState) (o : StabObs) : Option StabState :=
  if o.history.length < 10 then some st
  else
    match o.current with
    | none => some st
    | some cp =>
      if stdevLtB (svar o.history) (fs * 0.0003) then
        if |cp - sp| ≤ tol then
          match st.stabilityConfirmed with
          | none => some ⟨some o.t, none⟩
          | some t0 => if 3 ≤ o.t - t0 then none else some ⟨some t0, none⟩
        else
          match st.outOfTolStart with
          | none => some ⟨none, some o.t⟩
          | some t1 =>
            if 20 ≤ o.t - t1 then
              if o.opAccept = true then none else some ⟨none, none⟩
            else some ⟨none, some t1⟩
      else some ⟨none, none⟩

/-- Run of the stability loop on a trace of observations: some i when
the loop breaks into the sample window at the i-th observation, none when
the trace ends first (covering the cancelled run, which skips the
window). -/
def stabRun (fs sp tol : ℚ) (st : StabState) : List StabObs → Option ℕ
  | [] => none
  | o :: os =>
    match stabStep fs sp tol st o with
    | none => some 0
    | some st' => (stabRun fs sp tol st' os).map (· + 1)

/-- An observation the loop sleeps through: short history or unknown
pressure. -/
def obsSkip (o : StabObs) : Prop := o.history.length < 10 ∨ o.current = none

/-- A stable in-tolerance observation. -/
def obsLock (fs sp tol : ℚ) (o : StabObs) : Prop :=
  10 ≤ o.history.length ∧ stdevLtB (svar o.history) (fs * 0.0003) = true ∧
    ∃ cp, o.current = some cp ∧ |cp - sp| ≤ tol

/-- A stable out-of-tolerance observation. -/
def obsOut (fs sp tol : ℚ) (o : StabObs) : Prop :=
  10 ≤ o.history.length ∧ stdevLtB (svar o.history) (fs * 0.0003) = true ∧
    ∃ cp, o.current = some cp ∧ tol < |cp - sp|

/-- Every observation of positions j..i of the trace is a sleep or a
stable in-tolerance observation. -/
def chainLock (fs sp tol : ℚ) (os : List StabObs) (j i : ℕ) : Prop :=
  ∀ k ok, j ≤ k → k ≤ i → os.get? k = some ok → obsSkip ok ∨ obsLock fs sp tol ok

/-- Every observation of positions j..i of the trace is a sleep or a
stable out-of-tolerance observation. -/
def chainOut (fs sp tol : ℚ) (os : List StabObs) (j i : ℕ) : Prop :=
  ∀ k ok, j ≤ k → k ≤ i → os.get? k = some ok → obsSkip ok ∨ obsOut fs sp tol ok

/-- What holds when the stability loop, started with fresh timers,
breaks into the sample window at position i: the breaking observation is
stable with a full history, and either it is in tolerance and some
earlier stable in-tolerance observation at least 3 seconds older starts
an unbroken sleep-or-in-tolerance chain up to it, or it is out of
tolerance, the operator accepted, and some earlier stable
out-of-tolerance observation at least 20 seconds older starts an
unbroken sleep-or-out-of-tolerance chain up to it. -/
def gateConcl (fs sp tol : ℚ) (os : List StabObs) (i : ℕ) : Prop :=
  ∃ o, os.get? i = some o ∧ 10 ≤ o.history.length ∧
    stdevLtB (svar o.history) (fs * 0.0003) = true ∧
    (((∃ cp, o.current = some cp ∧ |cp - sp| ≤ tol) ∧
       ∃ j oj, j ≤ i ∧ os.get? j = some oj ∧ obsLock fs sp tol oj ∧
         3 ≤ o.t - oj.t ∧ chainLock fs sp tol os j i) ∨
     ((∃ cp, o.current = some cp ∧ tol < |cp - sp|) ∧ o.opAccept = true ∧
       ∃ j oj, j ≤ i ∧ os.get? j = some oj ∧ obsOut fs sp tol oj ∧
         20 ≤ o.t - oj.t ∧ chainOut fs sp tol os j i))

/-- Generalisation of gateConcl to a run started with arbitrary timers:
each timer may alternatively have been running since before the trace, in
which case the chain covers the whole prefix. -/
def gateConclAux (fs sp tol : ℚ) (os : List StabObs) (i : ℕ) (st : StabState) : Prop :=
  ∃ o, os.get? i = some o ∧ 10 ≤ o.history.length ∧
    stdevLtB (svar o.history) (fs * 0.0003) = true ∧
    (((∃ cp, o.current = some cp ∧ |cp - sp| ≤ tol) ∧
       ((∃ t0, st.stabilityConfirmed = some t0 ∧ 3 ≤ o.t - t0 ∧
          chainLock fs sp tol os 0 i) ∨
        (∃ j oj, j ≤ i ∧ os.get? j = some oj ∧ obsLock fs sp tol oj ∧
          3 ≤ o.t - oj.t ∧ chainLock fs sp tol os j i))) ∨
     ((∃ cp, o.current = some cp ∧ tol < |cp - sp|) ∧ o.opAccept = true ∧
       ((∃ t1, st.outOfTolStart = some t1 ∧ 20 ≤ o.t - t1 ∧
          chainOut fs sp tol os 0 i) ∨
        (∃ j oj, j ≤ i ∧ os.get? j = some oj ∧ obsOut fs sp tol oj ∧
          20 ≤ o.t - oj.t ∧ chainOut fs sp tol os j i))))

/-! ### Concrete states and traces exercising the theorems -/

/-- A controller holding 50 Torr of a 100 Torr full scale with the
pressure stuck at 60 Torr and a quiet history: the stuck-high branch of
the adaptive loop fires on it. -/
def stuckHighState : Ctrl :=
  ⟨100, 50, 10, List.replicate 10 60, List.replicate 10 50, some 60,
   50, 28, false, false, false, 0, false, 0, 0, false, false, 0, none⟩

/-- The same controller with the oscillation counter at its action
threshold. -/
def oscillatingState : Ctrl :=
  { stuckHighState with oscillation_counter := 2 }

/-- A set_pressure environment with the e-stop clear and an inlet valve
that never reports closed during the pump-down poll. -/
def quietEnv : SPEnv :=
  ⟨false, [some 50, some 99], some 80, some 50, some 28, 0⟩

/-- The same environment with the e-stop event set. -/
def estopEnv : SPEnv :=
  { quietEnv with estop := true }

/-- A stability-loop trace that locks in tolerance: two stable
in-tolerance observations 4 seconds apart. -/
def lockTrace : List StabObs :=
  [⟨0, List.replicate 10 50, some 50, false⟩,
   ⟨4, List.replicate 10 50, some 50, false⟩]

/-- A stability-loop trace that advances through the operator override:
two stable observations 10 Torr above the setpoint, 21 seconds apart,
the second with the operator accepting. -/
def overrideTrace : List StabObs :=
  [⟨0, List.replicate 10 60, some 60, false⟩,
   ⟨21, List.replicate 10 60, some 60, true⟩]

/-! ## Theorems -/

/-- Claim C9: for FS = 100 and active DUTs with full scales 100 and 10,
the generated composite setpoint list (union of the decade points of FS
and of each dut_fs, deduplicated after rounding to two decimals, sorted
ascending) equals 0..10 by ones then 20..100 by tens. -/
theorem setpoint_generation_example :
    genSetpoints 100 [100, 10] =
      ([0, 1, 2, 3, 4, 5, 6, 7, 8, 9, 10,
        20, 30, 40, 50, 60, 70, 80, 90, 100] : List ℚ) := by
  with_unfolding_all decide

/-- Counterexample to claim C8 as stated: on an active channel with
dut_fs = 10 and smoothed DAQ voltage 1, update_gui derives 4.9 Torr, not
the 1 Torr of the claimed formula voltage * (dut_fs / 10). -/
theorem dut_pressure_counterexample :
    dutDisplayPressure [(0, 10)] 0 (some 1) = some (4.9 : ℚ) ∧
    specDutPressure 1 10 = (1 : ℚ) ∧
    dutDisplayPressure [(0, 10)] 0 (some 1) ≠ some (specDutPressure 1 10) := by
  with_unfolding_all decide

/-- Claim C8 as amended: for every active DUT channel, the derived
pressure equals the divider-compensated voltage (the smoothed DAQ voltage
times 4.9) multiplied by dut_fs / 10, where dut_fs is the full scale of
the first matching channel entry. -/
theorem dut_pressure_amended (duts : List (ℕ × ℚ)) (ch : ℕ) (v fs : ℚ)
    (rest : List ℚ)
    (h : (duts.filter (fun d => d.1 = ch)).map (fun d => d.2) = fs :: rest) :
    dutDisplayPressure duts ch (some v) =
      some (specDutPressure (v * voltageDividerMultiplier) fs) := by
  cases hf : duts.filter (fun d => d.1 = ch) with
  | nil => rw [hf] at h; simp at h
  | cons x xs =>
    have hx : x ∈ duts.filter (fun d => d.1 = ch) := by
      rw [hf]; exact List.mem_cons_self _ _
    have hxd := List.mem_filter.mp hx
    have hany : duts.any (fun d => d.1 = ch) = true :=
      List.any_eq_true.mpr ⟨x, hxd.1, hxd.2⟩
    rw [hf] at h
    simp only [dutDisplayPressure, hany, if_true, hf, h]
    rfl

/-- Witness for the amended claim C8 at a concrete channel table. -/
theorem dut_pressure_amended_witness :
    dutDisplayPressure [(2, 100)] 2 (some 2) =
      some (specDutPressure (2 * voltageDividerMultiplier) 100) :=
  dut_pressure_amended [(2, 100)] 2 2 100 [] (by with_unfolding_all decide)

/-- Claim C4, evaluated at the failing input: with dut_fs = 10 the
setpoint 20 exceeds 1.05 times the full scale and marks the DUT
complete, yet the RPi_final sequencer records the mean of the collected
readings (a number, not NaN), and the pair survives the NaN filter into
the regression; the earlier final-version sequencer records NaN there,
as the claim states. -/
theorem out_of_range_row_recorded :
    dutCompletedB 20 10 = true ∧
    recordDutValueRPi [49] = some 49 ∧
    validPairs [(some 20, recordDutValueRPi [49])] = [(20, 49)] ∧
    recordDutValueFinal 20 10 [49] = none := by
  with_unfolding_all decide

/-- Updating one key of the store then looking it up yields the new
value. -/
theorem storeLookup_storeSet_self (st : Store) (k : ℚ) (v : List ℚ) :
    storeLookup (storeSet st k v) k = some v := by
  induction st with
  | nil => simp [storeSet, storeLookup]
  | cons e rest ih =>
    obtain ⟨k', v'⟩ := e
    by_cases h : k' = k
    · simp [storeSet, storeLookup, h]
    · simp [storeSet, storeLookup, h, ih]

/-- Updating one key of the store leaves every other key unchanged. -/
theorem storeLookup_storeSet_other (st : Store) (k k2 : ℚ) (v : List ℚ)
    (h : k2 ≠ k) : storeLookup (storeSet st k v) k2 = storeLookup st k2 := by
  have h2 : ¬ k = k2 := fun he => h he.symm
  induction st with
  | nil => simp [storeSet, storeLookup, h2]
  | cons e rest ih =>
    obtain ⟨k', v'⟩ := e
    by_cases hk : k' = k
    · subst hk
      simp [storeSet, storeLookup, h2]
    · by_cases hk2 : k' = k2
      · simp [storeSet, storeLookup, hk, hk2, h]
      · simp [storeSet, storeLookup, hk, hk2, ih]

/-- The truncation to the 10 most recent entries never leaves more than
10 entries. -/
theorem lastTen_length_le (l : List ℚ) : (lastTen l).length ≤ 10 := by
  unfold lastTen
  split
  · simp only [List.length_drop]
    omega
  · omega

/-- Counterexample to claim C6 as stated: completing the sp = 0 setpoint
with a known outlet position does update the learned store (the source
has no sp > 0 guard on the learn step). -/
theorem learn_zero_counterexample :
    learnStep [] 0 (some 100) = [(0, [100])] ∧ learnStep [] 0 (some 100) ≠ [] := by
  with_unfolding_all decide

/-- Claim C6 as amended: the learn step pushes the outlet position onto
the entry keyed by round(sp, 3) whenever the position is known — with no
condition on sp, so completing sp = 0 updates the key 0 — truncating the
entry to the 10 most recent values (hence never beyond length 10) and
leaving every other key unchanged; an unknown position leaves the store
unchanged. -/
theorem learn_step_amended (st : Store) (sp p : ℚ) :
    learnStep st sp none = st ∧
    storeLookup (learnStep st sp (some p)) (round3 sp) =
      some (lastTen ((storeLookup st (round3 sp)).getD [] ++ [p])) ∧
    (∀ l, storeLookup (learnStep st sp (some p)) (round3 sp) = some l →
      l.length ≤ 10) ∧
    ∀ k, k ≠ round3 sp → storeLookup (learnStep st sp (some p)) k = storeLookup st k := by
  refine ⟨rfl, ?_, ?_, ?_⟩
  · exact storeLookup_storeSet_self st (round3 sp) _
  · intro l hl
    have h2 : storeLookup (learnStep st sp (some p)) (round3 sp) =
        some (lastTen ((storeLookup st (round3 sp)).getD [] ++ [p])) :=
      storeLookup_storeSet_self st (round3 sp) _
    rw [h2] at hl
    cases hl
    exact lastTen_length_le _
  · intro k hk
    exact storeLookup_storeSet_other st (round3 sp) k _ hk

/-- Witness for the amended claim C6 at a concrete store: pushing onto
key round3 1 = 1 leaves the unrelated key 2 unchanged, and the updated
entry is the truncated append. -/
theorem learn_step_amended_witness :
    storeLookup (learnStep [(1, [3])] 1 (some 7)) 2 = storeLookup [(1, [3])] 2 ∧
    storeLookup (learnStep [(1, [3])] 1 (some 7)) (round3 1) =
      some (lastTen ((storeLookup [(1, [3])] (round3 1)).getD [] ++ [7])) :=
  ⟨(learn_step_amended [(1, [3])] 1 7).2.2.2 2 (by with_unfolding_all decide),
   (learn_step_amended [(1, [3])] 1 7).2.1⟩

/-- Counterexample to claim C5 as stated: three perfectly linear valid
pairs pass every regression criterion of the tuning analysis, yet the
certificate check of run_calibration (which requires strictly more than
3 valid pairs and uses its own max-deviation tolerance) emits no
certificate signal, so the signal is not emitted exactly for the passing
DUTs. -/
theorem cert_signal_counterexample :
    tuningPassStatus ([(0, 0), (10, 10), (20, 20)] : List (ℚ × ℚ)) 100 = true ∧
    certSignal ([(0, 0), (10, 10), (20, 20)] : List (ℚ × ℚ)) 100 = false := by
  with_unfolding_all decide

/-- Claim C5 as amended: with fewer than 3 valid pairs the DUT is marked
insufficient data (not passing); with at least 3 the tuning analysis
fits the ordinary-least-squares line and marks the DUT passing iff
|intercept| ≤ dut_fs * 0.001 and |1 - slope| ≤ 0.005 and the maximum
absolute residual is at most dut_fs * 0.002; the certificate-generation
signal, however, is emitted iff the DUT has strictly more than 3 valid
pairs whose maximum absolute deviation |dut - std| is at most
dut_fs * 0.005, an independent check rather than the passing mark. -/
theorem tuning_pass_amended (pts : List (ℚ × ℚ)) (fs : ℚ) :
    (pts.length < 3 → tuningPassStatus pts fs = false) ∧
    (3 ≤ pts.length →
      (tuningPassStatus pts fs = true ↔
        |(olsFit pts).2| ≤ fs * 0.001 ∧ |1 - (olsFit pts).1| ≤ 0.005 ∧
          maxAbs (residuals pts) ≤ fs * 0.002)) ∧
    (certSignal pts fs = true ↔ 3 < pts.length ∧ maxAbsErr pts ≤ fs * 0.005) := by
  refine ⟨?_, ?_, ?_⟩
  · intro h
    unfold tuningPassStatus
    rw [if_pos h]
  · intro h
    have hlen : ¬ pts.length < 3 := by omega
    have hres : (residuals pts).isEmpty = false := by
      cases pts with
      | nil => simp at h
      | cons a l => simp [residuals]
    simp only [tuningPassStatus, hlen, if_false, hres, Bool.false_eq_true]
    simp [not_lt]
    tauto
  · unfold certSignal
    by_cases h : 3 < pts.length
    · simp [h]
    · simp [h]

/-- Witness for the amended claim C5: the three perfect pairs reach the
at-least-3 branch and the criteria hold, so the pass mark is true. -/
theorem tuning_pass_amended_witness :
    tuningPassStatus ([(0, 0), (5, 5), (10, 10)] : List (ℚ × ℚ)) 100 = true :=
  ((tuning_pass_amended ([(0, 0), (5, 5), (10, 10)] : List (ℚ × ℚ)) 100).2.1
    (by with_unfolding_all decide)).mpr (by with_unfolding_all decide)

/-- Two-decimal rounding is monotone. -/
theorem round2_mono {x y : ℚ} (h : x ≤ y) : round2 x ≤ round2 y := by
  unfold round2
  have h2 : (⌊x * 100 + 1 / 2⌋ : ℤ) ≤ ⌊y * 100 + 1 / 2⌋ :=
    Int.floor_mono (by linarith)
  have h3 : ((⌊x * 100 + 1 / 2⌋ : ℤ) : ℚ) ≤ ((⌊y * 100 + 1 / 2⌋ : ℤ) : ℚ) := by
    exact_mod_cast h2
  linarith

/-- A value clamped into fixed bounds on the two-decimal grid stays in
the bounds after the two-decimal wire formatting. -/
theorem round2_clamp_mem (mn mx c : ℚ) (hmn : round2 mn = mn)
    (hmx : round2 mx = mx) (hle : mn ≤ mx) :
    mn ≤ round2 (max mn (min mx c)) ∧ round2 (max mn (min mx c)) ≤ mx := by
  constructor
  · have h1 := round2_mono (le_max_left mn (min mx c))
    rw [hmn] at h1
    exact h1
  · have h1 := round2_mono (max_le hle (min_le_left mx c))
    rw [hmx] at h1
    exact h1

/-- Any outlet value the emission stage writes lies inside the dynamic
clamp of the setpoint percentage it was given. -/
theorem emitPhase_clamped (s : Ctrl) (d : Decision) (spct : ℚ) (p : ℚ)
    (h : (emitPhase s d spct).2.1 = some p) :
    (spct ≤ 10 → 5 ≤ p ∧ p ≤ 85) ∧
    (10 < spct → spct ≤ 40 → 15 ≤ p ∧ p ≤ 50) ∧
    (40 < spct → spct < 90 → 22 ≤ p ∧ p ≤ 35) ∧
    (90 ≤ spct → 22 ≤ p ∧ p ≤ 40) := by
  unfold emitPhase at h
  split at h
  · simp at h
  · dsimp only at h
    split at h
    · simp only [Prod.snd, Prod.fst] at h
      have hp : p = round2 (max (clampBounds spct).1 (min (clampBounds spct).2
          d.newOutletPos)) := by
        cases h
        rfl
      subst hp
      refine ⟨?_, ?_, ?_, ?_⟩
      · intro h1
        have hb : clampBounds spct = (5, 85) := by
          unfold clampBounds
          rw [if_pos h1]
        rw [hb]
        exact round2_clamp_mem 5 85 _ (by with_unfolding_all decide)
          (by with_unfolding_all decide) (by norm_num)
      · intro h1 h2
        have hb : clampBounds spct = (15, 50) := by
          unfold clampBounds
          rw [if_neg (not_le.mpr h1), if_pos h2]
        rw [hb]
        exact round2_clamp_mem 15 50 _ (by with_unfolding_all decide)
          (by with_unfolding_all decide) (by norm_num)
      · intro h1 h2
        have hb : clampBounds spct = (22, 35) := by
          unfold clampBounds
          rw [if_neg (by linarith : ¬ spct ≤ 10), if_neg (not_le.mpr h1), if_pos h2]
        rw [hb]
        exact round2_clamp_mem 22 35 _ (by with_unfolding_all decide)
          (by with_unfolding_all decide) (by norm_num)
      · intro h1
        have hb : clampBounds spct = (22, 40) := by
          unfold clampBounds
          rw [if_neg (by linarith : ¬ spct ≤ 10), if_neg (by linarith : ¬ spct ≤ 40),
            if_neg (not_lt.mpr h1)]
        rw [hb]
        exact round2_clamp_mem 22 40 _ (by with_unfolding_all decide)
          (by with_unfolding_all decide) (by norm_num)
    · simp at h

/-- Claim C1: every adaptive-loop tick that issues an outlet command,
whatever the histories and counters in the state, commands a position
inside the clamp determined by the setpoint/FS percentage: [5, 85] at
or below 10 percent, [15, 50] at or below 40, [22, 35] below 90 and
[22, 40] at or above 90. -/
theorem adaptive_clamp_invariant (s : Ctrl) (estop : Bool) (now : ℚ) (p : ℚ)
    (h : (adaptiveTick s estop now).2.1 = some p) :
    (setpointPercent s ≤ 10 → 5 ≤ p ∧ p ≤ 85) ∧
    (10 < setpointPercent s → setpointPercent s ≤ 40 → 15 ≤ p ∧ p ≤ 50) ∧
    (40 < setpointPercent s → setpointPercent s < 90 → 22 ≤ p ∧ p ≤ 35) ∧
    (90 ≤ setpointPercent s → 22 ≤ p ∧ p ≤ 40) := by
  unfold adaptiveTick at h
  cases hc : s.current_pressure with
  | none =>
    rw [hc] at h
    simp at h
  | some cp =>
    rw [hc] at h
    dsimp only at h
    split at h
    · simp at h
    · exact emitPhase_clamped s _ (setpointPercent s) p h

/-- Witness for claim C1: the stuck-high state emits the command 28.5,
inside the clamp [22, 35] of its 50 percent setpoint. -/
theorem adaptive_clamp_invariant_witness :
    (22 : ℚ) ≤ 28.5 ∧ (28.5 : ℚ) ≤ 35 :=
  (adaptive_clamp_invariant stuckHighState false 0 28.5
      (by with_unfolding_all decide)).2.2.1
    (by with_unfolding_all decide) (by with_unfolding_all decide)

/-- Claim C2: on any adaptive decision consulted with oscillation
counter at least 2, emergency descent (candidate = current - 2.0) fires
when the error exceeds 0.05 * FS, the gentle descent
(candidate = current - 0.2) fires otherwise, and in both cases the
oscillation counter is reset to 0.  decideAction is the decision stage
the tick runs after the counter update, so its argument holds the
counter value the source consults. -/
theorem oscillation_response (s : Ctrl) (cp : ℚ)
    (h : 2 ≤ s.oscillation_counter) :
    (s.full_scale_pressure * 0.05 < cp - s.system_setpoint →
      (decideAction s cp).newOutletPos = s.outlet_valve_pos - 2 ∧
      (decideAction s cp).reason = .emergencyDescent) ∧
    (¬ s.full_scale_pressure * 0.05 < cp - s.system_setpoint →
      (decideAction s cp).newOutletPos = s.outlet_valve_pos - 0.2 ∧
      (decideAction s cp).reason = .pressureOscillating) ∧
    (decideAction s cp).state.oscillation_counter = 0 := by
  unfold decideAction
  dsimp only
  rw [if_pos h]
  by_cases he : s.full_scale_pressure * 0.05 < cp - s.system_setpoint
  · rw [if_pos he]
    exact ⟨fun _ => ⟨rfl, rfl⟩, fun hn => absurd he hn, rfl⟩
  · rw [if_neg he]
    exact ⟨fun hc => absurd hc he, fun _ => ⟨rfl, rfl⟩, rfl⟩

/-- Witness for claim C2: the oscillating state at pressure 60 against
setpoint 50 has error 10 above 0.05 * 100 and descends by 2. -/
theorem oscillation_response_witness :
    (decideAction oscillatingState 60).newOutletPos =
      oscillatingState.outlet_valve_pos - 2 ∧
    (decideAction oscillatingState 60).reason = .emergencyDescent :=
  (oscillation_response oscillatingState 60 (by with_unfolding_all decide)).1
    (by with_unfolding_all decide)

/-- Claim C7: when set_pressure(0) is called with the e-stop clear and
the polled inlet position never exceeds 99.9 before the 15 second poll
budget runs out, the transition aborts having written only the inlet
close command C; in particular no outlet command is issued. -/
theorem pump_down_timeout_aborts (s : Ctrl) (env : SPEnv) (predicted : Option ℚ)
    (hes : env.estop = false)
    (hobs : ∀ o ∈ env.inletPollObs, ∀ v, o = some v → v ≤ 99.9) :
    (setPressure s env 0 predicted).2 = [⟨.inlet, .close⟩] ∧
    ∀ c ∈ (setPressure s env 0 predicted).2, c.valve = Valve.inlet := by
  have hclosed : (env.inletPollObs.any fun o =>
      match o with
      | some v => decide (99.9 < v)
      | none => false) = false := by
    rw [List.any_eq_false]
    intro o ho
    cases o with
    | none => simp
    | some v =>
      simp only [decide_eq_true_eq]
      exact not_lt.mpr (hobs _ ho v rfl)
  simp [setPressure, hes, hclosed]

/-- Witness for claim C7 in the quiet environment: the command trace of
the aborted pump-down is exactly the inlet close. -/
theorem pump_down_timeout_aborts_witness :
    (setPressure stuckHighState quietEnv 0 none).2 = [⟨.inlet, .close⟩] :=
  (pump_down_timeout_aborts stuckHighState quietEnv none rfl
    (by
      intro o ho v hv
      simp only [quietEnv, List.mem_cons, List.not_mem_nil, or_false] at ho
      rcases ho with rfl | rfl
      · cases hv
        norm_num
      · cases hv
        norm_num)).1

/-- Claim C10: a set_pressure call finding the e-stop event set returns
immediately: no serial command is written and the controller state is
unchanged, for every setpoint and predicted position. -/
theorem estop_entry_no_effect (s : Ctrl) (env : SPEnv) (p : ℚ)
    (predicted : Option ℚ) (hes : env.estop = true) :
    setPressure s env p predicted = (s, []) := by
  unfold setPressure
  rw [hes]
  simp

/-- Witness for claim C10 at a concrete call. -/
theorem estop_entry_no_effect_witness :
    setPressure stuckHighState estopEnv 5 none = (stuckHighState, []) :=
  estop_entry_no_effect stuckHighState estopEnv 5 none rfl

/-- Counterexample to claim C3 as stated: on the override trace the
loop advances into the sample window (break at position 1) although the
mean of the pressure history is outside the priority tolerance at every
observation — the operator override path advances without the claimed
in-tolerance dwell, and the tolerance check the loop does run uses the
latest pressure, not the mean. -/
theorem stability_gate_counterexample :
    stabRun 100 50 (priorityTolerance [100] 100) ⟨none, none⟩ overrideTrace = some 1 ∧
    ∀ o ∈ overrideTrace,
      ¬ |mean o.history - 50| ≤ priorityTolerance [100] 100 := by
  with_unfolding_all decide

/-- Unfolding equation of the stability run on a breaking head. -/
theorem stabRun_cons_none {fs sp tol : ℚ} {st : StabState} {o : StabObs}
    (os : List StabObs) (h : stabStep fs sp tol st o = none) :
    stabRun fs sp tol st (o :: os) = some 0 := by
  simp only [stabRun, h]

/-- Unfolding equation of the stability run on a continuing head. -/
theorem stabRun_cons_some {fs sp tol : ℚ} {st st' : StabState} {o : StabObs}
    (os : List StabObs) (h : stabStep fs sp tol st o = some st') :
    stabRun fs sp tol st (o :: os) = (stabRun fs sp tol st' os).map (· + 1) := by
  simp only [stabRun, h]

/-- A sleep-or-in-tolerance chain extends over a matching head. -/
theorem chainLock_cons {fs sp tol : ℚ} {o : StabObs} {os : List StabObs} {i : ℕ}
    (h0 : obsSkip o ∨ obsLock fs sp tol o) (h : chainLock fs sp tol os 0 i) :
    chainLock fs sp tol (o :: os) 0 (i + 1) := by
  intro k ok hjk hki hk
  cases k with
  | zero =>
    cases hk
    exact h0
  | succ k => exact h k ok (Nat.zero_le k) (by omega) hk

/-- A sleep-or-in-tolerance chain shifts under any head. -/
theorem chainLock_succ {fs sp tol : ℚ} {o : StabObs} {os : List StabObs} {j i : ℕ}
    (h : chainLock fs sp tol os j i) :
    chainLock fs sp tol (o :: os) (j + 1) (i + 1) := by
  intro k ok hjk hki hk
  cases k with
  | zero => omega
  | succ k => exact h k ok (by omega) (by omega) hk

/-- A sleep-or-out-of-tolerance chain extends over a matching head. -/
theorem chainOut_cons {fs sp tol : ℚ} {o : StabObs} {os : List StabObs} {i : ℕ}
    (h0 : obsSkip o ∨ obsOut fs sp tol o) (h : chainOut fs sp tol os 0 i) :
    chainOut fs sp tol (o :: os) 0 (i + 1) := by
  intro k ok hjk hki hk
  cases k with
  | zero =>
    cases hk
    exact h0
  | succ k => exact h k ok (Nat.zero_le k) (by omega) hk

/-- A sleep-or-out-of-tolerance chain shifts under any head. -/
theorem chainOut_succ {fs sp tol : ℚ} {o : StabObs} {os : List StabObs} {j i : ℕ}
    (h : chainOut fs sp tol os j i) :
    chainOut fs sp tol (o :: os) (j + 1) (i + 1) := by
  intro k ok hjk hki hk
  cases k with
  | zero => omega
  | succ k => exact h k ok (by omega) (by omega) hk

/-- Lifting the break conclusion over a sleeping head that leaves both
timers unchanged. -/
theorem gateAux_cons_skip {fs sp tol : ℚ} {o : StabObs} {os : List StabObs}
    {i' : ℕ} {st : StabState} (hsk : obsSkip o)
    (IH : gateConclAux fs sp tol os i' st) :
    gateConclAux fs sp tol (o :: os) (i' + 1) st := by
  obtain ⟨ob, hget, hful, hstb, hcase⟩ := IH
  refine ⟨ob, hget, hful, hstb, ?_⟩
  rcases hcase with ⟨hin, halt⟩ | ⟨hout, hov, halt⟩
  · refine Or.inl ⟨hin, ?_⟩
    rcases halt with ⟨t0, hst, ht, hch⟩ | ⟨j, oj, hj, hgj, hoj, ht, hch⟩
    · exact Or.inl ⟨t0, hst, ht, chainLock_cons (Or.inl hsk) hch⟩
    · exact Or.inr ⟨j + 1, oj, by omega, hgj, hoj, ht, chainLock_succ hch⟩
  · refine Or.inr ⟨hout, hov, ?_⟩
    rcases halt with ⟨t1, hst, ht, hch⟩ | ⟨j, oj, hj, hgj, hoj, ht, hch⟩
    · exact Or.inl ⟨t1, hst, ht, chainOut_cons (Or.inl hsk) hch⟩
    · exact Or.inr ⟨j + 1, oj, by omega, hgj, hoj, ht, chainOut_succ hch⟩

/-- Lifting the break conclusion over a stable in-tolerance head: the
run continued with the 3 second timer holding t0, which either came from
the incoming state or started at this head. -/
theorem gateAux_cons_lock {fs sp tol : ℚ} {o : StabObs} {os : List StabObs}
    {i' : ℕ} {st : StabState} {t0 : ℚ} (hlock : obsLock fs sp tol o)
    (hprov : st.stabilityConfirmed = some t0 ∨ t0 = o.t)
    (IH : gateConclAux fs sp tol os i' ⟨some t0, none⟩) :
    gateConclAux fs sp tol (o :: os) (i' + 1) st := by
  obtain ⟨ob, hget, hful, hstb, hcase⟩ := IH
  refine ⟨ob, hget, hful, hstb, ?_⟩
  rcases hcase with ⟨hin, halt⟩ | ⟨hout, hov, halt⟩
  · refine Or.inl ⟨hin, ?_⟩
    rcases halt with ⟨t0x, hst, ht, hch⟩ | ⟨j, oj, hj, hgj, hoj, ht, hch⟩
    · have ht0 : t0x = t0 := by
        injection hst with h2
        exact h2.symm
      subst ht0
      rcases hprov with hp | hp
      · exact Or.inl ⟨t0x, hp, ht, chainLock_cons (Or.inr hlock) hch⟩
      · refine Or.inr ⟨0, o, by omega, rfl, hlock, ?_, chainLock_cons (Or.inr hlock) hch⟩
        rw [hp] at ht
        exact ht
    · exact Or.inr ⟨j + 1, oj, by omega, hgj, hoj, ht, chainLock_succ hch⟩
  · refine Or.inr ⟨hout, hov, ?_⟩
    rcases halt with ⟨t1, hst, ht, hch⟩ | ⟨j, oj, hj, hgj, hoj, ht, hch⟩
    · exact Option.noConfusion hst
    · exact Or.inr ⟨j + 1, oj, by omega, hgj, hoj, ht, chainOut_succ hch⟩

/-- Lifting the break conclusion over a stable out-of-tolerance head:
the run continued with the 20 second timer holding t1, which either came
from the incoming state or started at this head. -/
theorem gateAux_cons_out {fs sp tol : ℚ} {o : StabObs} {os : List StabObs}
    {i' : ℕ} {st : StabState} {t1 : ℚ} (hout : obsOut fs sp tol o)
    (hprov : st.outOfTolStart = some t1 ∨ t1 = o.t)
    (IH : gateConclAux fs sp tol os i' ⟨none, some t1⟩) :
    gateConclAux fs sp tol (o :: os) (i' + 1) st := by
  obtain ⟨ob, hget, hful, hstb, hcase⟩ := IH
  refine ⟨ob, hget, hful, hstb, ?_⟩
  rcases hcase with ⟨hin, halt⟩ | ⟨hov2, hov, halt⟩
  · refine Or.inl ⟨hin, ?_⟩
    rcases halt with ⟨t0, hst, ht, hch⟩ | ⟨j, oj, hj, hgj, hoj, ht, hch⟩
    · exact Option.noConfusion hst
    · exact Or.inr ⟨j + 1, oj, by omega, hgj, hoj, ht, chainLock_succ hch⟩
  · refine Or.inr ⟨hov2, hov, ?_⟩
    rcases halt with ⟨t1x, hst, ht, hch⟩ | ⟨j, oj, hj, hgj, hoj, ht, hch⟩
    · have ht1 : t1x = t1 := by
        injection hst with h2
        exact h2.symm
      subst ht1
      rcases hprov with hp | hp
      · exact Or.inl ⟨t1x, hp, ht, chainOut_cons (Or.inr hout) hch⟩
      · refine Or.inr ⟨0, o, by omega, rfl, hout, ?_, chainOut_cons (Or.inr hout) hch⟩
        rw [hp] at ht
        exact ht
    · exact Or.inr ⟨j + 1, oj, by omega, hgj, hoj, ht, chainOut_succ hch⟩

/-- Lifting the break conclusion over a head that cleared both timers. -/
theorem gateAux_cons_reset {fs sp tol : ℚ} {o : StabObs} {os : List StabObs}
    {i' : ℕ} {st : StabState}
    (IH : gateConclAux fs sp tol os i' ⟨none, none⟩) :
    gateConclAux fs sp tol (o :: os) (i' + 1) st := by
  obtain ⟨ob, hget, hful, hstb, hcase⟩ := IH
  refine ⟨ob, hget, hful, hstb, ?_⟩
  rcases hcase with ⟨hin, halt⟩ | ⟨hout, hov, halt⟩
  · refine Or.inl ⟨hin, ?_⟩
    rcases halt with ⟨t0, hst, _, _⟩ | ⟨j, oj, hj, hgj, hoj, ht, hch⟩
    · exact Option.noConfusion hst
    · exact Or.inr ⟨j + 1, oj, by omega, hgj, hoj, ht, chainLock_succ hch⟩
  · refine Or.inr ⟨hout, hov, ?_⟩
    rcases halt with ⟨t1, hst, _, _⟩ | ⟨j, oj, hj, hgj, hoj, ht, hch⟩
    · exact Option.noConfusion hst
    · exact Or.inr ⟨j + 1, oj, by omega, hgj, hoj, ht, chainOut_succ hch⟩

/-- Every break of the stability loop, from arbitrary incoming timers,
satisfies the generalized gate conclusion. -/
theorem stabRun_break_aux (fs sp tol : ℚ) :
    ∀ (os : List StabObs) (st : StabState) (i : ℕ),
      stabRun fs sp tol st os = some i → gateConclAux fs sp tol os i st := by
  intro os
  induction os with
  | nil =>
    intro st i h
    simp [stabRun] at h
  | cons o os ih =>
    intro st i h
    by_cases hlen : o.history.length < 10
    · have hs : stabStep fs sp tol st o = some st := by
        unfold stabStep
        rw [if_pos hlen]
      rw [stabRun_cons_some os hs] at h
      obtain ⟨i', hrun, rfl⟩ := Option.map_eq_some'.mp h
      exact gateAux_cons_skip (Or.inl hlen) (ih st i' hrun)
    · rcases hcur : o.current with _ | cp
      · have hs : stabStep fs sp tol st o = some st := by
          unfold stabStep
          rw [if_neg hlen, hcur]
        rw [stabRun_cons_some os hs] at h
        obtain ⟨i', hrun, rfl⟩ := Option.map_eq_some'.mp h
        exact gateAux_cons_skip (Or.inr hcur) (ih st i' hrun)
      · by_cases hstab : stdevLtB (svar o.history) (fs * 0.0003) = true
        · by_cases htol : |cp - sp| ≤ tol
          · have hlock : obsLock fs sp tol o := ⟨by omega, hstab, cp, hcur, htol⟩
            rcases hconf : st.stabilityConfirmed with _ | t0
            · have hs : stabStep fs sp tol st o = some ⟨some o.t, none⟩ := by
                unfold stabStep
                rw [if_neg hlen, hcur]
                dsimp only
                rw [if_pos hstab, if_pos htol, hconf]
              rw [stabRun_cons_some os hs] at h
              obtain ⟨i', hrun, rfl⟩ := Option.map_eq_some'.mp h
              exact gateAux_cons_lock hlock (Or.inr rfl) (ih _ i' hrun)
            · by_cases ht3 : 3 ≤ o.t - t0
              · have hs : stabStep fs sp tol st o = none := by
                  unfold stabStep
                  rw [if_neg hlen, hcur]
                  dsimp only
                  rw [if_pos hstab, if_pos htol, hconf]
                  dsimp only
                  rw [if_pos ht3]
                rw [stabRun_cons_none os hs] at h
                cases h
                refine ⟨o, rfl, by omega, hstab,
                  Or.inl ⟨⟨cp, hcur, htol⟩, Or.inl ⟨t0, hconf, ht3, ?_⟩⟩⟩
                intro k ok h1 h2 hk
                have hk0 : k = 0 := by omega
                subst hk0
                cases hk
                exact Or.inr hlock
              · have hs : stabStep fs sp tol st o = some ⟨some t0, none⟩ := by
                  unfold stabStep
                  rw [if_neg hlen, hcur]
                  dsimp only
                  rw [if_pos hstab, if_pos htol, hconf]
                  dsimp only
                  rw [if_neg ht3]
                rw [stabRun_cons_some os hs] at h
                obtain ⟨i', hrun, rfl⟩ := Option.map_eq_some'.mp h
                exact gateAux_cons_lock hlock (Or.inl hconf) (ih _ i' hrun)
          · have houto : obsOut fs sp tol o := ⟨by omega, hstab, cp, hcur, not_le.mp htol⟩
            rcases hoot : st.outOfTolStart with _ | t1
            · have hs : stabStep fs sp tol st o = some ⟨none, some o.t⟩ := by
                unfold stabStep
                rw [if_neg hlen, hcur]
                dsimp only
                rw [if_pos hstab, if_neg htol, hoot]
              rw [stabRun_cons_some os hs] at h
              obtain ⟨i', hrun, rfl⟩ := Option.map_eq_some'.mp h
              exact gateAux_cons_out houto (Or.inr rfl) (ih _ i' hrun)
            · by_cases ht20 : 20 ≤ o.t - t1
              · by_cases hov : o.opAccept = true
                · have hs : stabStep fs sp tol st o = none := by
                    unfold stabStep
                    rw [if_neg hlen, hcur]
                    dsimp only
                    rw [if_pos hstab, if_neg htol, hoot]
                    dsimp only
                    rw [if_pos ht20, if_pos hov]
                  rw [stabRun_cons_none os hs] at h
                  cases h
                  refine ⟨o, rfl, by omega, hstab,
                    Or.inr ⟨⟨cp, hcur, not_le.mp htol⟩, hov,
                      Or.inl ⟨t1, hoot, ht20, ?_⟩⟩⟩
                  intro k ok h1 h2 hk
                  have hk0 : k = 0 := by omega
                  subst hk0
                  cases hk
                  exact Or.inr houto
                · have hs : stabStep fs sp tol st o = some ⟨none, none⟩ := by
                    unfold stabStep
                    rw [if_neg hlen, hcur]
                    dsimp only
                    rw [if_pos hstab, if_neg htol, hoot]
                    dsimp only
                    rw [if_pos ht20, if_neg hov]
                  rw [stabRun_cons_some os hs] at h
                  obtain ⟨i', hrun, rfl⟩ := Option.map_eq_some'.mp h
                  exact gateAux_cons_reset (ih _ i' hrun)
              · have hs : stabStep fs sp tol st o = some ⟨none, some t1⟩ := by
                  unfold stabStep
                  rw [if_neg hlen, hcur]
                  dsimp only
                  rw [if_pos hstab, if_neg htol, hoot]
                  dsimp only
                  rw [if_neg ht20]
                rw [stabRun_cons_some os hs] at h
                obtain ⟨i', hrun, rfl⟩ := Option.map_eq_some'.mp h
                exact gateAux_cons_out houto (Or.inl hoot) (ih _ i' hrun)
        · have hs : stabStep fs sp tol st o = some ⟨none, none⟩ := by
            unfold stabStep
            rw [if_neg hlen, hcur]
            dsimp only
            rw [if_neg hstab]
          rw [stabRun_cons_some os hs] at h
          obtain ⟨i', hrun, rfl⟩ := Option.map_eq_some'.mp h
          exact gateAux_cons_reset (ih _ i' hrun)

/-- Claim C3 as amended: the sequencer advances past the stability wait
into the sample window only at a stable observation with a full history
(stdev below FS * 0.0003), and then only by one of two routes: either
the latest polled pressure (not the mean) has been within the priority
tolerance at every non-sleeping observation of an unbroken chain
starting at least 3 seconds earlier, or the breaking observation is out
of tolerance, the operator accepted the override, and every non-sleeping
observation of an unbroken chain starting at least 20 seconds earlier
was stable but out of tolerance. -/
theorem stability_gate_amended (fs sp tol : ℚ) (os : List StabObs) (i : ℕ)
    (h : stabRun fs sp tol ⟨none, none⟩ os = some i) :
    gateConcl fs sp tol os i := by
  obtain ⟨o, hget, hful, hstb, hcase⟩ := stabRun_break_aux fs sp tol os ⟨none, none⟩ i h
  refine ⟨o, hget, hful, hstb, ?_⟩
  rcases hcase with ⟨hin, halt⟩ | ⟨hout, hov, halt⟩
  · rcases halt with ⟨t0, hst, _, _⟩ | hj
    · exact Option.noConfusion hst
    · exact Or.inl ⟨hin, hj⟩
  · rcases halt with ⟨t1, hst, _, _⟩ | hj
    · exact Option.noConfusion hst
    · exact Or.inr ⟨hout, hov, hj⟩

/-- Witness for the amended claim C3 on the locking trace: two stable
in-tolerance observations 4 seconds apart advance the sequencer and the
gate conclusion holds there. -/
theorem stability_gate_amended_witness :
    gateConcl 100 50 (priorityTolerance [100] 100) lockTrace 1 :=
  stability_gate_amended 100 50 (priorityTolerance [100] 100) lockTrace 1
    (by with_unfolding_all decide)

end PressureController
